import Mathlib

/-!
Formal model of the per-session reverse proxy and backend supervisor in
`proxy_app.py`: the session registry, the backend provisioner, the idle
reaper, the HTTP reverse proxy header handling, the WebSocket bridge and
the `/start` login route, together with proofs of the specified
properties.

Conventions of the shallow embedding:
the Python module-level dict `backends` becomes an insertion-ordered
association list; `subprocess.Popen` handles reduce to their observable
`poll() is None` bit (`alive`) at the time of the modelled operation;
`time.monotonic()` is an explicit `Nat` clock in seconds passed to each
operation; side effects on the operating system (spawning, killing,
removing a working directory, touching the registry timestamp) are
recorded in an explicit action log so that theorems can state that an
operation did or did not perform them.
-/

namespace ProxyApp

/-- Backend handle: class `BackendInfo` of the source with attributes
`port`, `proc` (modelled by its liveness bit `alive`, the value of
`proc.poll() is None`), `workdir` and `last_seen`. -/
structure BackendInfo where
  port : Nat
  alive : Bool
  workdir : String
  last_seen : Nat
  deriving DecidableEq

deriving instance DecidableEq for Except

/-- Python dict lookup `d.get(key)` on an insertion-ordered association
list. -/
def aGet {α : Type} : List (String × α) → String → Option α
  | [], _ => none
  | p :: d, key => if p.1 = key then some p.2 else aGet d key

/-- Python dict assignment `d[key] = v`: updates an existing entry in
place, otherwise appends at the end. -/
def aUpsert {α : Type} (d : List (String × α)) (key : String) (v : α) :
    List (String × α) :=
  if d.any (fun p => p.1 == key) then
    d.map (fun p => if p.1 = key then (key, v) else p)
  else d ++ [(key, v)]

/-- Key removal, the registry effect of Python `d.pop(key, None)`. -/
def aRemove {α : Type} (d : List (String × α)) (key : String) : List (String × α) :=
  d.filter (fun p => p.1 != key)

/-- The dict invariant: no key occurs twice. -/
def nodupKeys {α : Type} (d : List (String × α)) : Prop :=
  (d.map Prod.fst).Nodup

/-- The registry: module-level `backends : Dict[str, BackendInfo]`. -/
abbrev Registry := List (String × BackendInfo)

/-- Source `session_key`: the f-string interpolation of host and token
around a double-colon separator. -/
def session_key (host token : String) : String := host ++ "::" ++ token

/-- Source `has_live_session`: entry present and its process still
running. -/
def has_live_session (reg : Registry) (host token : String) : Bool :=
  match aGet reg (session_key host token) with
  | some info => info.alive
  | none => false

/-- Source `touch_session`: set `last_seen` to the current monotonic
time when the entry exists, no-op otherwise. -/
def touch_session (reg : Registry) (host token : String) (now : Nat) : Registry :=
  reg.map (fun p =>
    if p.1 = session_key host token then (p.1, { p.2 with last_seen := now }) else p)

/-- Observable side effects of the registry and lifecycle operations. -/
inductive Action
  | spawned (port : Nat) (workdir : String)
  | killedProc (port : Nat)
  | removedDir (dir : String)
  | touched (key : String)
  deriving DecidableEq

/-- Provisioning path of `ensure_backend`: `start_backend` produced the
fresh handle `fresh` (its port, process and temp workdir are decided by
the operating system, hence a parameter), the handle is stored under
`key`, and then `wait_for_port` is awaited: if the port never accepts a
connection within the 30 s deadline (`portReady = false`), a
`TimeoutError` propagates out of the call.  The source performs no
cleanup on that path: the only recorded action is the spawn. -/
def ensure_spawn (reg : Registry) (key : String) (fresh : BackendInfo)
    (portReady : Bool) : Registry × List Action × Except String BackendInfo :=
  let reg' := aUpsert reg key fresh
  if portReady then (reg', [Action.spawned fresh.port fresh.workdir], Except.ok fresh)
  else (reg', [Action.spawned fresh.port fresh.workdir],
        Except.error "Timed out waiting for port")

/-- Source `ensure_backend`: under the global lock, return the stored
handle if its process is still running, otherwise spawn a fresh backend
and store it; then (outside the lock) wait for the port. -/
def ensure_backend (reg : Registry) (host token : String) (fresh : BackendInfo)
    (portReady : Bool) : Registry × List Action × Except String BackendInfo :=
  let key := session_key host token
  match aGet reg key with
  | some info =>
      if info.alive then (reg, [], Except.ok info)
      else ensure_spawn reg key fresh portReady
  | none => ensure_spawn reg key fresh portReady

/-- Source `stop_backend_by_key`: pop the entry; if the process is still
running, terminate (force-kill on failure); always remove the temp
working directory.  All cleanup failures are swallowed. -/
def stop_backend_by_key (reg : Registry) (key : String) : Registry × List Action :=
  match aGet reg key with
  | none => (reg, [])
  | some info =>
      (aRemove reg key,
       (if info.alive then [Action.killedProc info.port] else []) ++
        [Action.removedDir info.workdir])

/-- `INACTIVITY_SECS = 60 * 60` from the source (60 minutes). -/
def INACTIVITY_SECS : Nat := 60 * 60

/-- The reaper's per-entry condition: process alive and last activity
strictly older than the inactivity threshold. -/
def reap_due (now : Nat) (info : BackendInfo) : Bool :=
  info.alive && decide (INACTIVITY_SECS < now - info.last_seen)

/-- One step of the reaper's iteration over the snapshot. -/
def reap_step (now : Nat) (acc : Registry) (p : String × BackendInfo) : Registry :=
  if reap_due now p.2 then (stop_backend_by_key acc p.1).1 else acc

/-- Source `idle_reaper` loop body (one tick): iterate over a snapshot
`list(backends.items())` of the registry and stop every entry whose
process is alive but idle beyond the threshold. -/
def idle_reaper_tick (now : Nat) (reg : Registry) : Registry :=
  reg.foldl (reap_step now) reg

/-- C1.  For every ensure call whose backend process is launched but
never accepts a connection within the 30-second readiness deadline, the
claim says the call fails with a timeout error, the spawned process is
killed, its working directory is removed, and the registry is left with
no entry for that identity.  Evaluating the modelled `ensure_backend` on
an empty registry with a backend that never becomes ready shows the call
does fail with the timeout error, but the registry KEEPS the freshly
inserted entry, and the action log contains the spawn only — no kill and
no working-directory removal ever happens on this path, contradicting
the claimed cleanup. -/
theorem c1_ensure_timeout_leaves_partial_entry :
    ensure_backend [] "https://h/" "t" ⟨5001, true, "/tmp/w0", 0⟩ false =
      ([("https://h/::t", ⟨5001, true, "/tmp/w0", 0⟩)],
       [Action.spawned 5001 "/tmp/w0"],
       Except.error "Timed out waiting for port") := by
  decide

/-- C2.  For every identity whose registry entry has a still-running
process, a subsequent `ensure_backend` for the same identity returns the
existing handle unchanged (hence the same port and working directory),
records no spawn, and leaves the registry exactly as it was. -/
theorem c2_ensure_returns_existing_live_handle
    (reg : Registry) (host token : String) (fresh info : BackendInfo)
    (portReady : Bool)
    (hfound : aGet reg (session_key host token) = some info)
    (halive : info.alive = true) :
    ensure_backend reg host token fresh portReady = (reg, [], Except.ok info) := by
  simp [ensure_backend, hfound, halive]

/-- Witness for C2 at a concrete registry with one live entry. -/
theorem c2_witness :
    ensure_backend [("https://h/::t", ⟨4000, true, "/tmp/w1", 7⟩)]
        "https://h/" "t" ⟨5001, true, "/tmp/w0", 0⟩ true =
      ([("https://h/::t", ⟨4000, true, "/tmp/w1", 7⟩)], [],
       Except.ok ⟨4000, true, "/tmp/w1", 7⟩) :=
  c2_ensure_returns_existing_live_handle _ _ _ _ _ _ (by decide) (by decide)

/-- Lookup after filtering by a predicate on the key alone. -/
theorem aGet_filter {α : Type} (q : String → Bool) (d : List (String × α)) (k : String) :
    aGet (d.filter (fun p => q p.1)) k = if q k then aGet d k else none := by
  induction d with
  | nil => simp [aGet]
  | cons p d ih =>
    obtain ⟨a, b⟩ := p
    by_cases hak : a = k
    · subst hak
      by_cases hqa : q a <;> simp [List.filter_cons, aGet, hqa, ih]
    · by_cases hqa : q a <;> simp [List.filter_cons, aGet, hqa, hak, ih]

/-- Lookup after key removal. -/
theorem aGet_aRemove {α : Type} (d : List (String × α)) (k key : String) :
    aGet (aRemove d key) k = if k = key then none else aGet d k := by
  have h := aGet_filter (fun s => s != key) d k
  simp only [aRemove]
  rw [h]
  by_cases hk : k = key <;> simp [hk]

/-- Registry effect of `stop_backend_by_key`: exactly the given key is
gone, all other keys are untouched. -/
theorem aGet_stop_backend (reg : Registry) (k key : String) :
    aGet (stop_backend_by_key reg key).1 k = if k = key then none else aGet reg k := by
  unfold stop_backend_by_key
  cases hfind : aGet reg key with
  | none =>
    by_cases hk : k = key
    · subst hk; simp [hfind]
    · simp [hk]
  | some info => simp [aGet_aRemove]

/-- Lookup after folding the reaper step over a snapshot list. -/
theorem aGet_foldl_reap (now : Nat) (l : List (String × BackendInfo))
    (acc : Registry) (k : String) :
    aGet (l.foldl (reap_step now) acc) k =
      if l.any (fun p => p.1 == k && reap_due now p.2) then none else aGet acc k := by
  induction l generalizing acc with
  | nil => simp
  | cons p l ih =>
    rw [List.foldl_cons, ih]
    by_cases hpk : p.1 = k
    · by_cases hany : l.any (fun p => p.1 == k && reap_due now p.2) = true <;>
        by_cases hdue : reap_due now p.2 = true <;>
          simp [List.any_cons, hany, hdue, hpk, reap_step, aGet_stop_backend]
    · have hkp : ¬k = p.1 := fun h => hpk h.symm
      by_cases hany : l.any (fun p => p.1 == k && reap_due now p.2) = true <;>
        by_cases hdue : reap_due now p.2 = true <;>
          simp [List.any_cons, hany, hdue, hpk, hkp, reap_step, aGet_stop_backend]

/-- Under the dict invariant, the reaper's `any` over a snapshot reduces
to the predicate at the unique entry with the looked-up key. -/
theorem any_key_of_nodup (reg : Registry) (k : String) (i : BackendInfo)
    (f : BackendInfo → Bool) (hnodup : nodupKeys reg)
    (hget : aGet reg k = some i) :
    reg.any (fun p => p.1 == k && f p.2) = f i := by
  induction reg with
  | nil => simp [aGet] at hget
  | cons p reg ih =>
    obtain ⟨a, b⟩ := p
    rw [nodupKeys, List.map_cons, List.nodup_cons] at hnodup
    obtain ⟨hnotin, hnodup'⟩ := hnodup
    by_cases hak : a = k
    · subst hak
      simp only [aGet, if_true, eq_self_iff_true, Option.some.injEq] at hget
      have hbi : b = i := by simpa using hget
      have hrest : reg.any (fun p => p.1 == a && f p.2) = false := by
        rw [List.any_eq_false]
        intro x hx
        have hmem : x.1 ∈ List.map Prod.fst reg := List.mem_map_of_mem Prod.fst hx
        have hxa : x.1 ≠ a := fun he => hnotin (he ▸ hmem)
        simp [hxa]
      simp [List.any_cons, hrest, hbi]
    · simp only [aGet, if_neg hak] at hget
      simp [List.any_cons, hak, ih hnodup' hget]

/-- C5.  On a reaper tick, a registry entry is removed iff its process
is alive and its activity timestamp is strictly older than the
inactivity threshold (default 3600 s); an entry touched within the
threshold, or whose process has already exited, survives the tick with
its handle unchanged. -/
theorem c5_reaper_tick_removes_iff_alive_and_idle
    (reg : Registry) (now : Nat) (k : String) (i : BackendInfo)
    (hnodup : nodupKeys reg) (hget : aGet reg k = some i) :
    (aGet (idle_reaper_tick now reg) k = none ↔
      (i.alive = true ∧ INACTIVITY_SECS < now - i.last_seen)) ∧
    (¬(i.alive = true ∧ INACTIVITY_SECS < now - i.last_seen) →
      aGet (idle_reaper_tick now reg) k = some i) := by
  have hchar : aGet (idle_reaper_tick now reg) k =
      if reap_due now i then none else aGet reg k := by
    simp only [idle_reaper_tick]
    rw [aGet_foldl_reap, any_key_of_nodup reg k i _ hnodup hget]
  rw [hchar]
  by_cases hdue : reap_due now i = true
  · rw [if_pos hdue]
    simp only [reap_due, Bool.and_eq_true, decide_eq_true_eq] at hdue
    exact ⟨⟨fun _ => hdue, fun _ => rfl⟩, fun h => absurd hdue h⟩
  · rw [if_neg hdue, hget]
    simp only [reap_due, Bool.and_eq_true, decide_eq_true_eq] at hdue
    exact ⟨⟨fun h => by simp at h, fun h => absurd h hdue⟩, fun _ => rfl⟩

/-- Witness for C5: a live entry idle for 4000 s (threshold 3600 s) is
removed by the tick; the same entry at 1000 s survives unchanged. -/
theorem c5_witness :
    aGet (idle_reaper_tick 4000 [("https://h/::t", ⟨4000, true, "/tmp/w", 0⟩)])
        "https://h/::t" = none ∧
    aGet (idle_reaper_tick 1000 [("https://h/::t", ⟨4000, true, "/tmp/w", 0⟩)])
        "https://h/::t" = some ⟨4000, true, "/tmp/w", 0⟩ :=
  ⟨(c5_reaper_tick_removes_iff_alive_and_idle
      [("https://h/::t", ⟨4000, true, "/tmp/w", 0⟩)] 4000 "https://h/::t"
      ⟨4000, true, "/tmp/w", 0⟩ (by simp [nodupKeys]) (by decide)).1.mpr
      ⟨rfl, by decide⟩,
   (c5_reaper_tick_removes_iff_alive_and_idle
      [("https://h/::t", ⟨4000, true, "/tmp/w", 0⟩)] 1000 "https://h/::t"
      ⟨4000, true, "/tmp/w", 0⟩ (by simp [nodupKeys]) (by decide)).2
      (by decide)⟩

/-- Python `str.lower()` on header names (ASCII), written over the
character list so that it evaluates by kernel reduction. -/
def lowerStr (s : String) : String := String.mk (s.data.map Char.toLower)

/-- The eight hop-by-hop header names of the source's `is_hop_by_hop`. -/
def hop_by_hop_names : List String :=
  ["connection", "keep-alive", "proxy-authenticate", "proxy-authorization",
   "te", "trailers", "transfer-encoding", "upgrade"]

/-- Source `is_hop_by_hop`: case-insensitive membership in the
hop-by-hop set. -/
def is_hop_by_hop (h : String) : Bool := hop_by_hop_names.contains (lowerStr h)

/-- Request-side strip condition of `http_proxy`: hop-by-hop plus
content-length and accept-encoding. -/
def req_strip (k : String) : Bool :=
  is_hop_by_hop k || ["content-length", "accept-encoding"].contains (lowerStr k)

/-- `BACKEND_HOST = "127.0.0.1"` from the source. -/
def BACKEND_HOST : String := "127.0.0.1"

/-- Outbound request headers built by `http_proxy`: a Python dict
comprehension over the inbound header pairs dropping the strip set
(last occurrence of a duplicated name wins), then `headers["host"] =`
backend private address, then `headers.pop("expect", None)`. -/
def forward_request_headers (inbound : List (String × String)) (backendPort : Nat) :
    List (String × String) :=
  let filtered := inbound.filter (fun kv => !req_strip kv.1)
  let d := filtered.foldl (fun d kv => aUpsert d kv.1 kv.2) []
  let d' := aUpsert d "host" (BACKEND_HOST ++ ":" ++ toString backendPort)
  aRemove d' "expect"

/-- Response-side strip condition of `http_proxy`: hop-by-hop plus
content-length. -/
def resp_strip (k : String) : Bool := is_hop_by_hop k || lowerStr k == "content-length"

/-- Response headers relayed by `http_proxy`: the loop over
`upstream.headers.raw` appending every pair outside the strip set,
duplicates preserved in order. -/
def relay_response_headers (upstream : List (String × String)) : List (String × String) :=
  upstream.filter (fun kv => !resp_strip kv.1)

/-- Value of the last occurrence of a header name in a raw header
list. -/
def lastValue (l : List (String × String)) (k : String) : Option String :=
  match l.reverse.find? (fun kv => kv.1 == k) with
  | some kv => some kv.2
  | none => none

/-- Lookup distributes over append, first list wins. -/
theorem aGet_append {α : Type} (d e : List (String × α)) (k : String) :
    aGet (d ++ e) k = match aGet d k with | some v => some v | none => aGet e k := by
  induction d with
  | nil => simp [aGet]
  | cons p d ih => by_cases h : p.1 = k <;> simp [aGet, h, ih]

/-- A key that no entry carries looks up to `none`. -/
theorem aGet_eq_none_of_not_mem {α : Type} (d : List (String × α)) (key : String)
    (h : d.any (fun p => p.1 == key) = false) : aGet d key = none := by
  induction d with
  | nil => rfl
  | cons p d ih =>
    rw [List.any_cons, Bool.or_eq_false_iff] at h
    have h1 : ¬p.1 = key := by simpa using h.1
    simp [aGet, h1, ih h.2]

/-- In-place update leaves other keys alone. -/
theorem aGet_map_update {α : Type} (d : List (String × α)) (key : String) (v : α)
    (k : String) (hne : k ≠ key) :
    aGet (d.map (fun p => if p.1 = key then (key, v) else p)) k = aGet d k := by
  induction d with
  | nil => rfl
  | cons p d ih =>
    by_cases h : p.1 = key
    · have hpk : ¬p.1 = k := by rw [h]; exact Ne.symm hne
      simp [aGet, h, Ne.symm hne, hpk, ih]
    · simp [aGet, h, ih]

/-- In-place update stores the new value when the key occurs. -/
theorem aGet_map_update_self {α : Type} (d : List (String × α)) (key : String) (v : α)
    (hmem : d.any (fun p => p.1 == key) = true) :
    aGet (d.map (fun p => if p.1 = key then (key, v) else p)) key = some v := by
  induction d with
  | nil => simp at hmem
  | cons p d ih =>
    by_cases h : p.1 = key
    · simp [aGet, h]
    · rw [List.any_cons, Bool.or_eq_true] at hmem
      have hmem' : d.any (fun p => p.1 == key) = true := by
        rcases hmem with h1 | h2
        · exact absurd (by simpa using h1) h
        · exact h2
      simp [aGet, h, ih hmem']

/-- Dict assignment: the assigned key reads back the new value, every
other key is unchanged. -/
theorem aGet_aUpsert {α : Type} (d : List (String × α)) (key : String) (v : α)
    (k : String) :
    aGet (aUpsert d key v) k = if k = key then some v else aGet d k := by
  unfold aUpsert
  by_cases hmem : d.any (fun p => p.1 == key) = true
  · rw [if_pos hmem]
    by_cases hk : k = key
    · subst hk
      simp [aGet_map_update_self d k v hmem]
    · simp [aGet_map_update d key v k hk, hk]
  · rw [if_neg hmem]
    rw [aGet_append]
    have hmem' : d.any (fun p => p.1 == key) = false := by
      cases hval : d.any (fun p => p.1 == key)
      · rfl
      · exact absurd hval hmem
    by_cases hk : k = key
    · subst hk
      rw [aGet_eq_none_of_not_mem d k hmem']
      simp [aGet]
    · cases hd : aGet d k <;> simp [aGet, hk, Ne.symm hk]

/-- Building a dict from pairs by repeated assignment: a key reads back
the value of its last occurrence, else falls through to the seed. -/
theorem aGet_foldl_aUpsert (l : List (String × String)) (d0 : List (String × String))
    (k : String) :
    aGet (l.foldl (fun d kv => aUpsert d kv.1 kv.2) d0) k =
      match l.reverse.find? (fun kv => kv.1 == k) with
      | some kv => some kv.2
      | none => aGet d0 k := by
  induction l generalizing d0 with
  | nil => simp
  | cons kv l ih =>
    rw [List.foldl_cons, ih, List.reverse_cons, List.find?_append]
    cases hf : l.reverse.find? (fun kv => kv.1 == k) with
    | some kv' => simp
    | none =>
      by_cases hk : kv.1 = k
      · simp [List.find?, hk, aGet_aUpsert]
      · have hkk : ¬k = kv.1 := fun h => hk h.symm
        have hbeq : (kv.1 == k) = false := by simp [hk]
        simp [List.find?, hbeq, hkk, aGet_aUpsert]

/-- Filtering by a weaker predicate does not change `find?`. -/
theorem find?_filter_of_imp {α : Type} (p q : α → Bool) (l : List α)
    (h : ∀ x, p x = true → q x = true) :
    (l.filter q).find? p = l.find? p := by
  induction l with
  | nil => rfl
  | cons x l ih =>
    by_cases hq : q x = true
    · by_cases hp : p x = true <;> simp [List.filter_cons, List.find?_cons, hq, hp, ih]
    · have hp : p x = false := by
        cases hpx : p x
        · rfl
        · exact absurd (h x hpx) hq
      simp [List.filter_cons, List.find?_cons, hq, hp, ih]

/-- C3.  The claim says the forwarded request carries exactly the
inbound headers minus the hop-by-hop set plus content-length and
accept-encoding, duplicated names preserved.  Both parts fail on the
code: `http_proxy` additionally pops the `expect` header (which is in
none of those sets), and the dict comprehension collapses a duplicated
request header name to its last value.  Concretely, an inbound
`expect: 100-continue` does not reach the backend, and an inbound pair
of `x-dup` headers is forwarded as the single last pair. -/
theorem c3_counterexample :
    is_hop_by_hop "expect" = false ∧
    (["content-length", "accept-encoding"].contains "expect") = false ∧
    forward_request_headers [("expect", "100-continue")] 5000 =
      [("host", "127.0.0.1:5000")] ∧
    forward_request_headers [("x-dup", "1"), ("x-dup", "2")] 5000 =
      [("x-dup", "2"), ("host", "127.0.0.1:5000")] := by
  decide

/-- C3 (amended).  The request forwarded by `http_proxy` carries, as a
dict: Host rewritten to the backend's private address; nothing for
`expect` or for any name in the hop-by-hop/content-length/
accept-encoding strip set; and for every other name the value of its
last inbound occurrence (duplicates collapse to the last value).  The
relayed response carries exactly the backend's header pairs outside the
hop-by-hop/content-length strip set, in order and with duplicated names
preserved. -/
theorem c3_header_handling_amended (inbound upstream : List (String × String))
    (port : Nat) (k : String) :
    (aGet (forward_request_headers inbound port) "host" =
      some ("127.0.0.1:" ++ toString port)) ∧
    (aGet (forward_request_headers inbound port) "expect" = none) ∧
    (req_strip k = true → aGet (forward_request_headers inbound port) k = none) ∧
    (req_strip k = false → k ≠ "host" → k ≠ "expect" →
      aGet (forward_request_headers inbound port) k = lastValue inbound k) ∧
    (relay_response_headers upstream).Sublist upstream ∧
    (∀ kv : String × String, resp_strip kv.1 = false →
      (relay_response_headers upstream).count kv = upstream.count kv) ∧
    (∀ kv ∈ relay_response_headers upstream, resp_strip kv.1 = false) := by
  refine ⟨?_, ?_, ?_, ?_, ?_, ?_, ?_⟩
  · unfold forward_request_headers
    rw [aGet_aRemove]
    rw [if_neg (by decide)]
    rw [aGet_aUpsert]
    simp [BACKEND_HOST]
  · unfold forward_request_headers
    rw [aGet_aRemove]
    simp
  · intro hstrip
    have hhost : req_strip "host" = false := by decide
    have hexp : req_strip "expect" = false := by decide
    have hkh : k ≠ "host" := by
      intro he; rw [he, hhost] at hstrip; simp at hstrip
    have hke : k ≠ "expect" := by
      intro he; rw [he, hexp] at hstrip; simp at hstrip
    unfold forward_request_headers
    rw [aGet_aRemove, if_neg hke, aGet_aUpsert, if_neg hkh, aGet_foldl_aUpsert]
    have hnone : ((inbound.filter (fun kv => !req_strip kv.1)).reverse.find?
        (fun kv => kv.1 == k)) = none := by
      rw [List.find?_eq_none]
      intro kv hkv
      rw [List.mem_reverse] at hkv
      have := List.of_mem_filter hkv
      intro hbeq
      rw [beq_iff_eq] at hbeq
      rw [hbeq] at this
      rw [hstrip] at this
      simp at this
    rw [hnone]
    rfl
  · intro hstrip hkh hke
    unfold forward_request_headers
    rw [aGet_aRemove, if_neg hke, aGet_aUpsert, if_neg hkh, aGet_foldl_aUpsert]
    have hcomm : ((inbound.filter (fun kv => !req_strip kv.1)).reverse.find?
        (fun kv => kv.1 == k)) = inbound.reverse.find? (fun kv => kv.1 == k) := by
      rw [← List.filter_reverse]
      exact find?_filter_of_imp _ _ _ (fun x hx => by
        rw [beq_iff_eq] at hx
        rw [hx, hstrip]
        rfl)
    rw [hcomm, lastValue]
    cases inbound.reverse.find? (fun kv => kv.1 == k) <;> simp [aGet]
  · exact List.filter_sublist _
  · intro kv hkv
    unfold relay_response_headers
    rw [List.count_filter]
    simp [hkv]
  · intro kv hkv
    have := List.of_mem_filter hkv
    simpa using this

/-- Witness for C3 (amended) at a concrete request/response pair with a
duplicated Set-Cookie response header. -/
theorem c3_witness :
    aGet (forward_request_headers [("x-a", "1"), ("connection", "close")] 6000) "connection"
      = none ∧
    aGet (forward_request_headers [("x-a", "1"), ("connection", "close")] 6000) "x-a"
      = lastValue [("x-a", "1"), ("connection", "close")] "x-a" ∧
    (relay_response_headers
        [("set-cookie", "a"), ("set-cookie", "b"), ("content-length", "3")]).count
      ("set-cookie", "a") =
      ([("set-cookie", "a"), ("set-cookie", "b"), ("content-length", "3")] :
        List (String × String)).count ("set-cookie", "a") := by
  refine ⟨?_, ?_, ?_⟩
  · exact (c3_header_handling_amended [("x-a", "1"), ("connection", "close")] []
      6000 "connection").2.2.1 (by decide)
  · exact (c3_header_handling_amended [("x-a", "1"), ("connection", "close")] []
      6000 "x-a").2.2.2.1 (by decide) (by decide) (by decide)
  · exact (c3_header_handling_amended []
      [("set-cookie", "a"), ("set-cookie", "b"), ("content-length", "3")]
      6000 "x-a").2.2.2.2.2.1 ("set-cookie", "a") (by decide)

/-- Helper for Python's substring test: does `sub` occur inside the
list? -/
def listInfix (sub : List Char) : List Char → Bool
  | [] => sub.isEmpty
  | c :: rest => sub.isPrefixOf (c :: rest) || listInfix sub rest

/-- Python `sub in s` on strings. -/
def containsSubstr (s sub : String) : Bool := listInfix sub.data s.data

/-- Routing decision of an HTTP handler. -/
inductive ProxyDecision
  | redirectResp (loc : String) (status : Nat)
  | plainResp (body : String) (status : Nat)
  | forwarded (port : Nat)
  deriving DecidableEq

/-- Port read by `backends[key]` on the live path. -/
def backend_port (reg : Registry) (key : String) : Nat :=
  match aGet reg key with
  | some info => info.port
  | none => 0

/-- Source `http_proxy` routing (the `/goose`, `/goose/` and
`/goose/{path}` routes): with a missing or empty token or host cookie,
or no live session, always a 303 redirect to `/` — the request's Accept
header is available but never consulted; on a live session touch the
registry and forward to the backend port.  The `_accept` argument
records the ignored Accept header. -/
def http_proxy_handler (reg : Registry) (tokenC hostC : Option String)
    (_accept : String) (now : Nat) : Registry × List Action × ProxyDecision :=
  match tokenC, hostC with
  | some t, some h =>
    if t == "" || h == "" || !has_live_session reg h t then
      (reg, [], ProxyDecision.redirectResp "/" 303)
    else
      (touch_session reg h t now, [Action.touched (session_key h t)],
       ProxyDecision.forwarded (backend_port reg (session_key h t)))
  | _, _ => (reg, [], ProxyDecision.redirectResp "/" 303)

/-- Source `absolute_proxy` routing (the lowest-priority catch-all
route): with no live session, a 303 redirect to `/` when the path is
empty or the Accept header contains `text/html`, otherwise a 404
`Not found`; on a live session touch and forward. -/
def absolute_proxy_handler (reg : Registry) (tokenC hostC : Option String)
    (path accept : String) (now : Nat) : Registry × List Action × ProxyDecision :=
  match tokenC, hostC with
  | some t, some h =>
    if t == "" || h == "" || !has_live_session reg h t then
      if path == "" || containsSubstr accept "text/html" then
        (reg, [], ProxyDecision.redirectResp "/" 303)
      else (reg, [], ProxyDecision.plainResp "Not found" 404)
    else
      (touch_session reg h t now, [Action.touched (session_key h t)],
       ProxyDecision.forwarded (backend_port reg (session_key h t)))
  | _, _ =>
    if path == "" || containsSubstr accept "text/html" then
      (reg, [], ProxyDecision.redirectResp "/" 303)
    else (reg, [], ProxyDecision.plainResp "Not found" 404)

/-- Truthy cookie pair identifying a live session: the negation of the
handlers' bail-out condition `not token or not host or not
has_live_session(host, token)`. -/
def cookie_live (reg : Registry) (tokenC hostC : Option String) : Bool :=
  match tokenC, hostC with
  | some t, some h => !(t == "" || h == "" || !has_live_session reg h t)
  | _, _ => false

/-- C4.  The claim says non-navigation requests (by declared acceptable
content types) to a reverse-proxy route with no live session get a
not-found/unauthorized status.  False on the code: the `/goose` routes
respond with the 303 redirect to `/` for every request, Accept header
ignored — here a request with `Accept: application/json` still gets the
redirect, not a 404/401. -/
theorem c4_counterexample :
    http_proxy_handler [] (some "C1") (some "E1") "application/json" 0 =
      ([], [], ProxyDecision.redirectResp "/" 303) ∧
    ProxyDecision.redirectResp "/" 303 ≠ ProxyDecision.plainResp "Not found" 404 := by
  decide

/-- C4 (amended).  With cookies identifying no live session, the
`/goose` reverse-proxy routes always respond with a 303 redirect to `/`
regardless of the declared acceptable content types, while the
lowest-priority catch-all route redirects only when the path is empty
or the Accept header contains `text/html` and responds 404 `Not found`
otherwise; neither route performs any registry action or provisioning —
in particular `GET /goose/anything` with no registry entry returns the
redirect to `/`. -/
theorem c4_no_session_routing_amended (reg : Registry) (tokenC hostC : Option String)
    (path accept : String) (now : Nat)
    (hdead : cookie_live reg tokenC hostC = false) :
    http_proxy_handler reg tokenC hostC accept now =
      (reg, [], ProxyDecision.redirectResp "/" 303) ∧
    absolute_proxy_handler reg tokenC hostC path accept now =
      (if path == "" || containsSubstr accept "text/html" then
        (reg, [], ProxyDecision.redirectResp "/" 303)
      else (reg, [], ProxyDecision.plainResp "Not found" 404)) := by
  cases tokenC with
  | none => exact ⟨rfl, rfl⟩
  | some t =>
    cases hostC with
    | none => exact ⟨rfl, rfl⟩
    | some h =>
      simp only [cookie_live] at hdead
      have hcond : (t == "" || h == "" || !has_live_session reg h t) = true := by
        cases hval : (t == "" || h == "" || !has_live_session reg h t)
        · rw [hval] at hdead; simp at hdead
        · rfl
      exact ⟨by simp [http_proxy_handler, hcond],
             by simp [absolute_proxy_handler, hcond]⟩

/-- Witness for C4 (amended): empty registry, cookie pair present, a
non-navigation Accept header. -/
theorem c4_witness :
    http_proxy_handler [] (some "tok") (some "E1") "application/json" 0 =
      ([], [], ProxyDecision.redirectResp "/" 303) ∧
    absolute_proxy_handler [] (some "tok") (some "E1") "anything" "application/json" 0 =
      (if ("anything" : String) == "" || containsSubstr "application/json" "text/html" then
        ([], [], ProxyDecision.redirectResp "/" 303)
      else ([], [], ProxyDecision.plainResp "Not found" 404)) :=
  c4_no_session_routing_amended [] (some "tok") (some "E1") "anything" "application/json" 0
    (by decide)

/-- Outcome of the WebSocket bridge up to the relay phase. -/
inductive WsPhase
  | closedWs (code : Nat)
  | abortedAccept
  | bridged
  deriving DecidableEq

/-- Source `_ws_bridge` up to the relay loops: resolve cookies; with no
live session close the inbound socket with code 4401 and do nothing
else; with a live session but a failed outbound connect close with
code 1013 and do nothing else; with a failed accept close the upstream
and stop; otherwise accept, increment the live-connection counter and
touch the session. -/
def ws_bridge (reg : Registry) (wsConns : Nat) (tokenC hostC : Option String)
    (connectOk acceptOk : Bool) (now : Nat) :
    Registry × Nat × List Action × WsPhase :=
  match tokenC, hostC with
  | some t, some h =>
    if t == "" || h == "" || !has_live_session reg h t then
      (reg, wsConns, [], WsPhase.closedWs 4401)
    else if !connectOk then (reg, wsConns, [], WsPhase.closedWs 1013)
    else if !acceptOk then (reg, wsConns, [], WsPhase.abortedAccept)
    else (touch_session reg h t now, wsConns + 1,
          [Action.touched (session_key h t)], WsPhase.bridged)
  | _, _ => (reg, wsConns, [], WsPhase.closedWs 4401)

/-- C7.  A WebSocket upgrade whose cookies identify no live session is
closed with code 4401, with no provisioning and no state change; a
live session whose outbound connect fails is closed with code 1013,
with registry and connection counter unchanged and no further
action. -/
theorem c7_ws_bridge_rejections (reg : Registry) (wsConns : Nat)
    (tokenC hostC : Option String) (connectOk acceptOk : Bool) (now : Nat) :
    (cookie_live reg tokenC hostC = false →
      ws_bridge reg wsConns tokenC hostC connectOk acceptOk now =
        (reg, wsConns, [], WsPhase.closedWs 4401)) ∧
    (cookie_live reg tokenC hostC = true → connectOk = false →
      ws_bridge reg wsConns tokenC hostC connectOk acceptOk now =
        (reg, wsConns, [], WsPhase.closedWs 1013)) := by
  cases tokenC with
  | none => exact ⟨fun _ => rfl, fun hlive _ => by simp [cookie_live] at hlive⟩
  | some t =>
    cases hostC with
    | none => exact ⟨fun _ => rfl, fun hlive _ => by simp [cookie_live] at hlive⟩
    | some h =>
      constructor
      · intro hdead
        simp only [cookie_live] at hdead
        have hcond : (t == "" || h == "" || !has_live_session reg h t) = true := by
          cases hval : (t == "" || h == "" || !has_live_session reg h t)
          · rw [hval] at hdead; simp at hdead
          · rfl
        simp [ws_bridge, hcond]
      · intro hlive hconn
        simp only [cookie_live, Bool.not_eq_true'] at hlive
        simp [ws_bridge, hlive, hconn]

/-- Witness for C7: empty registry rejects with 4401; live entry with a
failed outbound connect rejects with 1013, state untouched. -/
theorem c7_witness :
    ws_bridge [] 3 (some "tok") (some "E1") true true 0 =
      ([], 3, [], WsPhase.closedWs 4401) ∧
    ws_bridge [("E1::tok", ⟨4000, true, "/tmp/w", 0⟩)] 3 (some "tok") (some "E1")
        false true 0 =
      ([("E1::tok", ⟨4000, true, "/tmp/w", 0⟩)], 3, [], WsPhase.closedWs 1013) :=
  ⟨(c7_ws_bridge_rejections [] 3 (some "tok") (some "E1") true true 0).1 (by decide),
   (c7_ws_bridge_rejections [("E1::tok", ⟨4000, true, "/tmp/w", 0⟩)] 3 (some "tok")
      (some "E1") false true 0).2 (by decide) rfl⟩

/-- Events on the process-wide `WS_CONNECTIONS` counter: `opened` is
the single increment performed right after a successful accept,
`closedEv` the single decrement performed in the `finally` block when
the relay loops terminate (from either direction). -/
inductive WsEvent
  | opened (id : Nat)
  | closedEv (id : Nat)
  deriving DecidableEq

/-- Well-formedness run over a counter trace: a bridge id opens only
while not already open and closes only while open — exactly the
discipline the code's accept/`try`/`finally` structure enforces per
accepted bridge.  Returns the ids of the currently bridged
connections. -/
def wsRun : List Nat → List WsEvent → Option (List Nat)
  | s, [] => some s
  | s, WsEvent.opened i :: tr => if i ∈ s then none else wsRun (i :: s) tr
  | s, WsEvent.closedEv i :: tr => if i ∈ s then wsRun (s.erase i) tr else none

/-- Value of `WS_CONNECTIONS` after a trace: one increment per open,
one decrement per close. -/
def wsCounter : List WsEvent → Int
  | [] => 0
  | WsEvent.opened _ :: tr => wsCounter tr + 1
  | WsEvent.closedEv _ :: tr => wsCounter tr - 1

/-- The counter change along a well-formed trace equals the change in
the number of open connections. -/
theorem wsRun_length (tr : List WsEvent) : ∀ s0 s : List Nat,
    wsRun s0 tr = some s → (s0.length : Int) + wsCounter tr = s.length := by
  induction tr with
  | nil =>
    intro s0 s h
    simp [wsRun] at h
    subst h
    simp [wsCounter]
  | cons e tr ih =>
    intro s0 s h
    cases e with
    | opened i =>
      rw [wsRun] at h
      by_cases hi : i ∈ s0
      · rw [if_pos hi] at h; cases h
      · rw [if_neg hi] at h
        have hrec := ih _ _ h
        rw [List.length_cons] at hrec
        rw [wsCounter]
        omega
    | closedEv i =>
      rw [wsRun] at h
      by_cases hi : i ∈ s0
      · rw [if_pos hi] at h
        have hrec := ih _ _ h
        have hlen : (s0.erase i).length = s0.length - 1 := List.length_erase_of_mem hi
        have hpos : 1 ≤ s0.length := List.length_pos.mpr (List.ne_nil_of_mem hi)
        rw [hlen] at hrec
        rw [wsCounter]
        omega
      · rw [if_neg hi] at h; cases h

/-- C8.  Along every well-formed bridge trace (each accepted bridge
increments the counter exactly once on accept and decrements exactly
once on relay termination), the `WS_CONNECTIONS` counter equals the
number of currently bridged connections and is never negative. -/
theorem c8_ws_counter_invariant (tr : List WsEvent) (s : List Nat)
    (h : wsRun [] tr = some s) :
    wsCounter tr = s.length ∧ 0 ≤ wsCounter tr := by
  have h0 := wsRun_length tr [] s h
  rw [List.length_nil] at h0
  omega

/-- Witness for C8: two bridges accepted, the first one closed. -/
theorem c8_witness :
    wsCounter [WsEvent.opened 1, WsEvent.opened 2, WsEvent.closedEv 1] =
      ([2] : List Nat).length ∧
    0 ≤ wsCounter [WsEvent.opened 1, WsEvent.opened 2, WsEvent.closedEv 1] :=
  c8_ws_counter_invariant [WsEvent.opened 1, WsEvent.opened 2, WsEvent.closedEv 1]
    [2] (by decide)

/-- Interleaving state of two concurrent `ensure_backend` calls for two
distinct identities.  The source guards the whole body of
`ensure_backend` (registry check, `start_backend` with its blocking
directory copy, dependency sync and process launch, registry insert)
with the single module-level `asyncio.Lock`; only `wait_for_port` runs
after release.  A task's program counter hence means:
0 = about to acquire the global lock, 1 = provisioning inside the
critical section, 2 = about to release, 3 = awaiting the port outside
the lock, 4 = done. -/
structure SchedState where
  holder : Option (Fin 2)
  pc : Fin 2 → Nat

/-- Advance one task's program counter. -/
def bump (pc : Fin 2 → Nat) (t : Fin 2) : Fin 2 → Nat :=
  fun u => if u = t then pc u + 1 else pc u

theorem bump_ne (pc : Fin 2 → Nat) (t u : Fin 2) (h : u ≠ t) : bump pc t u = pc u := by
  simp [bump, h]

/-- Lock acquisition is enabled only while nobody holds the global
lock. -/
def canAcquire (s : SchedState) (t : Fin 2) : Prop :=
  s.pc t = 0 ∧ s.holder = none

/-- One interleaving step of the two ensure calls. -/
inductive SchedStep : SchedState → SchedState → Prop
  | acquire (s : SchedState) (t : Fin 2) (hpc : s.pc t = 0) (hfree : s.holder = none) :
      SchedStep s ⟨some t, bump s.pc t⟩
  | provision (s : SchedState) (t : Fin 2) (hpc : s.pc t = 1)
      (hh : s.holder = some t) : SchedStep s ⟨s.holder, bump s.pc t⟩
  | release (s : SchedState) (t : Fin 2) (hpc : s.pc t = 2)
      (hh : s.holder = some t) : SchedStep s ⟨none, bump s.pc t⟩
  | waitPort (s : SchedState) (t : Fin 2) (hpc : s.pc t = 3) :
      SchedStep s ⟨s.holder, bump s.pc t⟩

/-- Initial state: lock free, both calls at the acquire step. -/
def initSched : SchedState := ⟨none, fun _ => 0⟩

/-- States reachable by interleaving the two ensure calls. -/
inductive SchedReachable : SchedState → Prop
  | init : SchedReachable initSched
  | step {s s' : SchedState} : SchedReachable s → SchedStep s s' → SchedReachable s'

/-- Task `t` has acquired the lock and not yet released it: its
provisioning (directory copy, dependency sync, process launch,
registry insert) is in flight inside the critical section. -/
def provisioningInFlight (s : SchedState) (t : Fin 2) : Prop :=
  s.pc t = 1 ∨ s.pc t = 2

/-- One step preserves the mutual-exclusion invariant. -/
theorem inFlight_step {s s' : SchedState} (hstep : SchedStep s s')
    (ih : ∀ t : Fin 2, provisioningInFlight s t → s.holder = some t) :
    ∀ t : Fin 2, provisioningInFlight s' t → s'.holder = some t := by
  cases hstep with
  | acquire t hpc hfree =>
    intro u hu
    by_cases hut : u = t
    · subst hut; rfl
    · exfalso
      have hu2 : bump s.pc t u = 1 ∨ bump s.pc t u = 2 := hu
      rw [bump_ne s.pc t u hut] at hu2
      have := ih u hu2
      rw [this] at hfree
      cases hfree
  | provision t hpc hh =>
    intro u hu
    by_cases hut : u = t
    · subst hut; exact hh
    · have hu2 : bump s.pc t u = 1 ∨ bump s.pc t u = 2 := hu
      rw [bump_ne s.pc t u hut] at hu2
      exact ih u hu2
  | release t hpc hh =>
    intro u hu
    exfalso
    by_cases hut : u = t
    · subst hut
      have hu2 : bump s.pc u u = 1 ∨ bump s.pc u u = 2 := hu
      rw [show bump s.pc u u = s.pc u + 1 from by simp [bump], hpc] at hu2
      rcases hu2 with h | h <;> simp at h
    · have hu2 : bump s.pc t u = 1 ∨ bump s.pc t u = 2 := hu
      rw [bump_ne s.pc t u hut] at hu2
      have := ih u hu2
      rw [hh] at this
      injection this with he
      exact hut he.symm
  | waitPort t hpc =>
    intro u hu
    by_cases hut : u = t
    · subst hut
      exfalso
      have hu2 : bump s.pc u u = 1 ∨ bump s.pc u u = 2 := hu
      rw [show bump s.pc u u = s.pc u + 1 from by simp [bump], hpc] at hu2
      rcases hu2 with h | h <;> simp at h
    · have hu2 : bump s.pc t u = 1 ∨ bump s.pc t u = 2 := hu
      rw [bump_ne s.pc t u hut] at hu2
      exact ih u hu2

/-- Mutual-exclusion invariant: in every reachable state, a task whose
provisioning is in flight holds the global lock. -/
theorem holder_of_inFlight : ∀ {s : SchedState}, SchedReachable s →
    ∀ t : Fin 2, provisioningInFlight s t → s.holder = some t := by
  intro s hr
  induction hr with
  | init =>
    intro t ht
    rcases ht with h | h <;> simp [initSched] at h
  | step hr hstep ih => exact inFlight_step hstep ih

/-- The reachable state in which the first ensure call has acquired the
global lock and is provisioning. -/
def blockedState : SchedState := ⟨some 0, bump initSched.pc 0⟩

/-- C6.  The claim says ensure calls for distinct identities never
serialize against each other.  False on the code: there is a single
module-level lock and provisioning runs inside its critical section, so
after one step from the initial state the first call's provisioning is
in flight and the second call's lock acquisition — the first step of
any other identity's `ensure_backend` — is disabled: it must wait. -/
theorem c6_counterexample :
    SchedStep initSched blockedState ∧
    provisioningInFlight blockedState 0 ∧
    ¬canAcquire blockedState 1 := by
  refine ⟨SchedStep.acquire initSched 0 rfl rfl, Or.inl (by decide), ?_⟩
  rintro ⟨_, hfree⟩
  cases hfree

/-- C6 (amended).  All `ensure_backend` calls serialize on the single
global lock, and provisioning executes inside its critical section: in
every reachable interleaving state, while one call's provisioning is in
flight, no other call can acquire the lock, so every other identity's
ensure call waits for the provisioning to finish. -/
theorem c6_ensure_serializes_amended (s : SchedState) (t u : Fin 2)
    (hr : SchedReachable s) (hin : provisioningInFlight s t) :
    ¬canAcquire s u := by
  have hh := holder_of_inFlight hr t hin
  rintro ⟨_, hfree⟩
  rw [hh] at hfree
  cases hfree

/-- Witness for C6 (amended) at the concrete one-step state. -/
theorem c6_witness : ¬canAcquire blockedState 1 :=
  c6_ensure_serializes_amended blockedState 0 1
    (SchedReachable.step SchedReachable.init (SchedStep.acquire initSched 0 rfl rfl))
    (Or.inl (by decide))

/-- Python `str.strip()`: drop leading and trailing whitespace, written
over the character list so that it evaluates. -/
def pyStrip (s : String) : String :=
  String.mk (((s.data.dropWhile Char.isWhitespace).reverse.dropWhile
    Char.isWhitespace).reverse)

/-- Python `str.startswith`. -/
def strStartsWith (s p : String) : Bool := p.data.isPrefixOf s.data

/-- The `h.endswith("/")` test of `normalize_host`. -/
def endsWithSlash (s : String) : Bool := s.data.getLast? == some '/'

/-- Source `normalize_host`: strip, reject empty (`ValueError`, i.e. a
400 at the route), default the scheme to `https://` and ensure a
trailing slash. -/
def normalize_host (h : String) : Except String String :=
  let h1 := pyStrip h
  if h1 = "" then Except.error "DATABRICKS_HOST is required"
  else
    let h2 := if strStartsWith h1 "http://" || strStartsWith h1 "https://" then h1
              else "https://" ++ h1
    let h3 := if endsWithSlash h2 then h2 else h2 ++ "/"
    Except.ok h3

/-- A Set-Cookie issued by the `/start` route. -/
structure SetCookie where
  name : String
  value : String
  max_age : Nat
  httponly : Bool
  deriving DecidableEq

/-- `COOKIE_MAX_AGE = 8 * 60 * 60` from the source (8 hours). -/
def COOKIE_MAX_AGE : Nat := 8 * 60 * 60

/-- Response of the `/start` route. -/
inductive StartResp
  | badRequest (msg : String)
  | badGateway (msg : String)
  | redirectWith (loc : String) (status : Nat) (cookies : List SetCookie)
  deriving DecidableEq

/-- Source `start` route (`POST /start`): normalize the host (400 on a
`ValueError`, registry untouched); ensure the backend (502 on a
provisioning failure); on success touch the session and redirect 303 to
`/` setting the two HTTP-only session cookies with the configured max
age. -/
def start_handler (reg : Registry) (host token : String) (fresh : BackendInfo)
    (portReady : Bool) (now : Nat) : Registry × List Action × StartResp :=
  match normalize_host host with
  | Except.error e => (reg, [], StartResp.badRequest e)
  | Except.ok nh =>
    match ensure_backend reg nh token fresh portReady with
    | (reg', acts, Except.error e) =>
        (reg', acts, StartResp.badGateway ("Failed to start backend: " ++ e))
    | (reg', acts, Except.ok _) =>
        (touch_session reg' nh token now,
         acts ++ [Action.touched (session_key nh token)],
         StartResp.redirectWith "/" 303
           [⟨"goose_token", token, COOKIE_MAX_AGE, true⟩,
            ⟨"goose_host", nh, COOKIE_MAX_AGE, true⟩])

/-- A list is a prefix of itself followed by anything. -/
theorem isPrefixOf_append_self (l m : List Char) : l.isPrefixOf (l ++ m) = true := by
  rw [List.isPrefixOf_iff_prefix]
  exact List.prefix_append l m

/-- Being a prefix survives appending on the right. -/
theorem isPrefixOf_append_right (l m r : List Char)
    (h : l.isPrefixOf m = true) : l.isPrefixOf (m ++ r) = true := by
  rw [List.isPrefixOf_iff_prefix] at h ⊢
  exact h.trans (List.prefix_append m r)

/-- Appending the slash makes `endswith("/")` true. -/
theorem endsWithSlash_append_slash (s : String) : endsWithSlash (s ++ "/") = true := by
  unfold endsWithSlash
  rw [String.data_append]
  have hd : ("/" : String).data = ['/'] := rfl
  rw [hd, List.getLast?_concat]
  simp

/-- Prefixing the scheme makes `startswith("https://")` true. -/
theorem strStartsWith_https (s : String) :
    strStartsWith ("https://" ++ s) "https://" = true := by
  unfold strStartsWith
  rw [String.data_append]
  exact isPrefixOf_append_self _ _

/-- `startswith` survives appending the trailing slash. -/
theorem strStartsWith_append (s p r : String) (h : strStartsWith s p = true) :
    strStartsWith (s ++ r) p = true := by
  unfold strStartsWith at h ⊢
  rw [String.data_append]
  exact isPrefixOf_append_right _ _ _ h

/-- `ensure_backend` with a ready port always returns a handle. -/
theorem ensure_backend_ready_ok (reg : Registry) (host token : String)
    (fresh : BackendInfo) :
    ∃ reg' acts info, ensure_backend reg host token fresh true =
      (reg', acts, Except.ok info) := by
  cases hf : aGet reg (session_key host token) with
  | none =>
    exact ⟨aUpsert reg (session_key host token) fresh,
      [Action.spawned fresh.port fresh.workdir], fresh,
      by simp [ensure_backend, ensure_spawn, hf]⟩
  | some info =>
    by_cases ha : info.alive = true
    · exact ⟨reg, [], info, by simp [ensure_backend, hf, ha]⟩
    · exact ⟨aUpsert reg (session_key host token) fresh,
        [Action.spawned fresh.port fresh.workdir], fresh,
        by simp [ensure_backend, ensure_spawn, hf, ha]⟩

/-- A host accepted by `normalize_host` ends with a slash and carries a
scheme. -/
theorem normalize_host_ok_props (h nh : String)
    (hok : normalize_host h = Except.ok nh) :
    endsWithSlash nh = true ∧
    (strStartsWith nh "http://" || strStartsWith nh "https://") = true := by
  have hne : ¬(pyStrip h = "") := by
    intro he
    simp [normalize_host, he] at hok
  simp only [normalize_host, if_neg hne] at hok
  injection hok with hnh
  subst hnh
  have hbase : (strStartsWith (if strStartsWith (pyStrip h) "http://" ||
      strStartsWith (pyStrip h) "https://" then pyStrip h
      else "https://" ++ pyStrip h) "http://" ||
    strStartsWith (if strStartsWith (pyStrip h) "http://" ||
      strStartsWith (pyStrip h) "https://" then pyStrip h
      else "https://" ++ pyStrip h) "https://") = true := by
    by_cases hsch : (strStartsWith (pyStrip h) "http://" ||
        strStartsWith (pyStrip h) "https://") = true
    · rw [if_pos hsch]
      exact hsch
    · rw [if_neg hsch]
      have hs := strStartsWith_https (pyStrip h)
      simp [hs]
  by_cases hsl : endsWithSlash (if strStartsWith (pyStrip h) "http://" ||
      strStartsWith (pyStrip h) "https://" then pyStrip h
      else "https://" ++ pyStrip h) = true
  · rw [if_pos hsl]
    exact ⟨hsl, hbase⟩
  · rw [if_neg hsl]
    refine ⟨endsWithSlash_append_slash _, ?_⟩
    rw [Bool.or_eq_true] at hbase ⊢
    rcases hbase with hb | hb
    · exact Or.inl (strStartsWith_append _ _ _ hb)
    · exact Or.inr (strStartsWith_append _ _ _ hb)

/-- C9.  `POST /start`: an empty or whitespace-only host yields the 400
response with the registry untouched and no action taken; otherwise the
host is normalized — it ends with `/` and starts with a scheme,
`https://` being prefixed when none was given — and, when the backend
becomes ready, the response is the 303 redirect to `/` carrying the two
HTTP-only session cookies with the configured max age (28800 s), the
host cookie holding the normalized host. -/
theorem c9_start_route (reg : Registry) (host token : String)
    (fresh : BackendInfo) (now : Nat) :
    (∀ portReady : Bool, pyStrip host = "" →
      start_handler reg host token fresh portReady now =
        (reg, [], StartResp.badRequest "DATABRICKS_HOST is required")) ∧
    (∀ nh : String, normalize_host host = Except.ok nh →
      endsWithSlash nh = true ∧
      (strStartsWith nh "http://" || strStartsWith nh "https://") = true ∧
      (start_handler reg host token fresh true now).2.2 =
        StartResp.redirectWith "/" 303
          [⟨"goose_token", token, COOKIE_MAX_AGE, true⟩,
           ⟨"goose_host", nh, COOKIE_MAX_AGE, true⟩]) := by
  constructor
  · intro portReady hempty
    have hnorm : normalize_host host = Except.error "DATABRICKS_HOST is required" := by
      simp [normalize_host, hempty]
    simp [start_handler, hnorm]
  · intro nh hok
    obtain ⟨hslash, hscheme⟩ := normalize_host_ok_props host nh hok
    refine ⟨hslash, hscheme, ?_⟩
    obtain ⟨reg', acts, info, he⟩ := ensure_backend_ready_ok reg nh token fresh
    simp [start_handler, hok, he]

/-- Witness for C9: a whitespace-only host is rejected with 400; the
bare host `example.com` is normalized to `https://example.com/` and the
success response carries the two cookies. -/
theorem c9_witness :
    start_handler [] "   " "tok" ⟨5001, true, "/tmp/w0", 0⟩ true 0 =
      ([], [], StartResp.badRequest "DATABRICKS_HOST is required") ∧
    (endsWithSlash "https://example.com/" = true ∧
     (strStartsWith "https://example.com/" "http://" ||
       strStartsWith "https://example.com/" "https://") = true ∧
     (start_handler [] "example.com" "tok" ⟨5001, true, "/tmp/w0", 0⟩ true 0).2.2 =
       StartResp.redirectWith "/" 303
         [⟨"goose_token", "tok", COOKIE_MAX_AGE, true⟩,
          ⟨"goose_host", "https://example.com/", COOKIE_MAX_AGE, true⟩]) :=
  ⟨(c9_start_route [] "   " "tok" ⟨5001, true, "/tmp/w0", 0⟩ 0).1 true (by decide),
   (c9_start_route [] "example.com" "tok" ⟨5001, true, "/tmp/w0", 0⟩ 0).2
     "https://example.com/" (by decide)⟩

/-- Splitting on the double-colon separator is unambiguous when neither
left part contains a colon. -/
theorem colon2_append_inj (l1 : List Char) : ∀ l2 m1 m2 : List Char,
    (':' : Char) ∉ l1 → (':' : Char) ∉ l2 →
    l1 ++ ':' :: ':' :: m1 = l2 ++ ':' :: ':' :: m2 → l1 = l2 ∧ m1 = m2 := by
  induction l1 with
  | nil =>
    intro l2 m1 m2 h1 h2 he
    cases l2 with
    | nil =>
      rw [List.nil_append, List.nil_append] at he
      injection he with e1 he
      injection he with e2 he
      exact ⟨rfl, he⟩
    | cons c l2 =>
      rw [List.nil_append, List.cons_append] at he
      injection he with e1 he
      exfalso
      apply h2
      rw [← e1]
      exact List.mem_cons_self ':' l2
  | cons c l1 ih =>
    intro l2 m1 m2 h1 h2 he
    cases l2 with
    | nil =>
      rw [List.cons_append, List.nil_append] at he
      injection he with e1 he
      exfalso
      apply h1
      rw [e1]
      exact List.mem_cons_self ':' l1
    | cons d l2 =>
      rw [List.cons_append, List.cons_append] at he
      injection he with e1 he
      have h1' : (':' : Char) ∉ l1 := fun hm => h1 (List.mem_cons_of_mem c hm)
      have h2' : (':' : Char) ∉ l2 := fun hm => h2 (List.mem_cons_of_mem d hm)
      obtain ⟨hl, hm⟩ := ih l2 m1 m2 h1' h2' he
      exact ⟨by rw [e1, hl], hm⟩

/-- C10.  The claim says `session_key` is injective.  False: the host
may itself contain the `::` separator, so two distinct credential pairs
collide — `("a::b", "c")` and `("a", "b::c")` both map to the key
`a::b::c` and would resolve to the same registry entry. -/
theorem c10_counterexample :
    session_key "a::b" "c" = session_key "a" "b::c" ∧
    (("a::b", "c") : String × String) ≠ (("a", "b::c") : String × String) := by
  decide

/-- C10 (amended).  `session_key` is not injective in general, but it is
injective on pairs whose host contains no colon character: two pairs
with colon-free hosts that map to the same key are equal. -/
theorem c10_session_key_injective_amended (h1 t1 h2 t2 : String)
    (hc1 : (':' : Char) ∉ h1.data) (hc2 : (':' : Char) ∉ h2.data)
    (he : session_key h1 t1 = session_key h2 t2) : h1 = h2 ∧ t1 = t2 := by
  have hdata1 : (session_key h1 t1).data = h1.data ++ ':' :: ':' :: t1.data := by
    rw [session_key, String.data_append, String.data_append, List.append_assoc]
    rfl
  have hdata2 : (session_key h2 t2).data = h2.data ++ ':' :: ':' :: t2.data := by
    rw [session_key, String.data_append, String.data_append, List.append_assoc]
    rfl
  have hd : h1.data ++ ':' :: ':' :: t1.data = h2.data ++ ':' :: ':' :: t2.data := by
    rw [← hdata1, ← hdata2, he]
  obtain ⟨hh, ht⟩ := colon2_append_inj h1.data h2.data t1.data t2.data hc1 hc2 hd
  exact ⟨String.ext hh, String.ext ht⟩

/-- Witness for C10 (amended) at a concrete colon-free pair. -/
theorem c10_witness : ("a" : String) = "a" ∧ ("b" : String) = "b" :=
  c10_session_key_injective_amended "a" "b" "a" "b" (by decide) (by decide) rfl

end ProxyApp
